import Mathlib

/-!
Verification development for the Validly JSON comparison/validation engine
(src/Validly/validator.py).  The Python data model and the operations of
`json_difference` and `json_validate` are shallowly embedded as executable
Lean definitions; Python `float`/`int` numerics are modelled by `Rat`,
Python exceptions by `Except String`, and the recursion of the tree walker
by an explicit fuel parameter (fuel exhaustion is an `Except.error`, and the
top-level entry points supply fuel that exceeds the recursion the walker can
perform on the given trees).
-/

namespace Validly

/-- A Python JSON-like value: None, bool, int/float (modelled as `Rat`),
str, list, dict (assoc list in insertion order, keys unique in practice). -/
inductive Json where
  | null
  | bool (b : Bool)
  | num (q : Rat)
  | str (s : String)
  | arr (elems : List Json)
  | obj (fields : List (String × Json))

/-- Python `str()` of an `int` or a `Rat`-modelled number; integers render
with no decimal part (matches Python `str(int)`; non-integers are not
exercised by any claim). -/
def ratStr (q : Rat) : String :=
  if q.den == 1 then toString q.num else toString q

/-- Python `str()` of a scalar as it appears interpolated into the error
message f-strings of validator.py (containers never reach a message in
any claim; they are given a fixed rendering). -/
def pyStr : Json → String
  | Json.null => ("None")
  | Json.bool b => if b then ("True") else ("False")
  | Json.num q => ratStr q
  | Json.str s => s
  | Json.arr _ => ("[...]")
  | Json.obj _ => ("\x7b...\x7d")

/-- Whether a value is a Python dict or list (`isinstance(x, (dict, list))`). -/
def isContainer : Json → Bool
  | Json.arr _ => true
  | Json.obj _ => true
  | _ => false

/-- Whether a value is a Python dict (`isinstance(x, dict)`). -/
def isObjB : Json → Bool
  | Json.obj _ => true
  | _ => false

/-- First-match lookup in an insertion-ordered dict, Python `d[k]` / `k in d`. -/
def lookupKey {α : Type} : List (String × α) → String → Option α
  | [], _ => none
  | (k, v) :: rest, key => if k == key then some v else lookupKey rest key

/-- The numeric value Python gives a bool (`True == 1`, `False == 0`). -/
def boolRat (b : Bool) : Rat := if b then 1 else 0

mutual
/-- Python `==` on JSON-like values: numbers (and bools) compare by value,
dicts compare as key-value maps, lists elementwise. -/
def pyEq : Json → Json → Bool
  | Json.null, Json.null => true
  | Json.bool a, Json.bool b => a == b
  | Json.bool a, Json.num n => boolRat a == n
  | Json.num n, Json.bool a => n == boolRat a
  | Json.num a, Json.num b => a == b
  | Json.str a, Json.str b => a == b
  | Json.arr xs, Json.arr ys => pyEqList xs ys
  | Json.obj xs, Json.obj ys => xs.length == ys.length && pyEqFields xs ys
  | _, _ => false
termination_by structural x => x

/-- Elementwise Python `==` of two lists. -/
def pyEqList : List Json → List Json → Bool
  | [], [] => true
  | x :: xs, y :: ys => pyEq x y && pyEqList xs ys
  | _, _ => false
termination_by structural x => x

/-- Every binding of the first dict is matched by the second dict. -/
def pyEqFields : List (String × Json) → List (String × Json) → Bool
  | [], _ => true
  | (k, v) :: rest, ys =>
    (match lookupKey ys k with
     | some w => pyEq v w
     | none => false) && pyEqFields rest ys
termination_by structural x => x
end

/-- Python `s.split(c)` for a one-character separator, over char lists. -/
def splitOnCharGo (c : Char) : List Char → List Char → List (List Char)
  | [], acc => [acc.reverse]
  | x :: xs, acc =>
    if x == c then acc.reverse :: splitOnCharGo c xs [] else splitOnCharGo c xs (x :: acc)

/-- Python `s.split(c)`. -/
def splitOnChar (c : Char) (l : List Char) : List (List Char) := splitOnCharGo c l []

/-- Python `s.endswith(suf)` over char lists. -/
def listEndsWith (l suf : List Char) : Bool := (l.reverse.take suf.length) == suf.reverse

/-- Leaf key extraction, from `get_leaf_key`: after the last `]` with
surrounding dots stripped, else after the last `.`. -/
def stripDots (l : List Char) : List Char :=
  ((l.dropWhile (fun c => c == '.')).reverse.dropWhile (fun c => c == '.')).reverse

/-- Embeds `get_leaf_key` of validator.py. -/
def getLeafKey (p : String) : String :=
  if p.toList.any (fun c => c == ']') then
    String.mk (stripDots ((splitOnChar ']' p.toList).getLastD []))
  else String.mk ((splitOnChar '.' p.toList).getLastD [])

/-- Embeds `is_in_options`: the rule-key list contains the literal path,
the leaf key, or a suffix `.k` of the path; an empty list never matches. -/
def isInOptions (p : String) (optList : List String) : Bool :=
  if optList.isEmpty then false
  else optList.any (fun opt =>
    opt == p || opt == getLeafKey p || listEndsWith p.toList ('.' :: opt.toList))

/-- Embeds `is_in_numeric_options`: the same discipline over the keys of a
map-valued rule set. -/
def isInNumericOptions {α : Type} (p : String) (optDict : List (String × α)) : Bool :=
  if optDict.isEmpty then false
  else optDict.any (fun kv =>
    kv.1 == p || kv.1 == getLeafKey p || listEndsWith p.toList ('.' :: kv.1.toList))

/-- Python path join `f"{cur}.{k}" if cur else k`. -/
def joinPath (cur k : String) : String :=
  if cur == "" then k else cur ++ (".") ++ k

/-- A hex digit, the character class `[0-9a-fA-F]`. -/
def isHexDigit (c : Char) : Bool := c.isDigit || ('a' ≤ c && c ≤ 'f') || ('A' ≤ c && c ≤ 'F')

/-- The canonical UUID regex of validator.py: 8-4-4-4-12 hex groups. -/
def isUuidStr (s : String) : Bool :=
  match splitOnChar '-' s.toList with
  | [a, b, c, d, e] =>
    a.length == 8 && b.length == 4 && c.length == 4 && d.length == 4 && e.length == 12 &&
    (a ++ b ++ c ++ d ++ e).all isHexDigit
  | _ => false

/-- A character of the standard Base64 alphabet `[A-Za-z0-9+/]`. -/
def isB64Char (c : Char) : Bool := c.isAlpha || c.isDigit || c == '+' || c == '/'

/-- Consumes groups of four Base64 characters with an optional final
group padded by `=` or `==`; the full string shape of the Base64 regex. -/
def b64Groups : List Char → Bool
  | [] => true
  | [a, b, '=', '='] => isB64Char a && isB64Char b
  | [a, b, c, '='] => isB64Char a && isB64Char b && isB64Char c
  | a :: b :: c :: d :: rest =>
    isB64Char a && isB64Char b && isB64Char c && isB64Char d && b64Groups rest
  | _ => false

/-- The Base64 regex of validator.py. -/
def isBase64Str (s : String) : Bool := b64Groups s.toList

/-- The PAN regex of validator.py: 5 uppercase letters, 4 digits, 1 uppercase. -/
def isPanStr (s : String) : Bool :=
  let cs := s.toList
  cs.length == 10 && (cs.take 5).all (fun c => c.isUpper) &&
  ((cs.drop 5).take 4).all Char.isDigit && (cs.drop 9).all (fun c => c.isUpper)

/-- The Aadhaar regex of validator.py: exactly 12 digits. -/
def isAadharStr (s : String) : Bool :=
  s.toList.length == 12 && s.toList.all Char.isDigit

/-- A character of the reference-path class `[a-zA-Z0-9_.-]`. -/
def refChar (c : Char) : Bool := c.isAlphanum || c == '_' || c == '.' || c == '-'

/-- Full match of `\x7bACTUAL_VALUE:([a-zA-Z0-9_.-]+)\x7d` returning the
captured dotted path, from `_resolve_reference`. -/
def placeholderRef (s : String) : Option String :=
  let cs := s.toList
  let pref := ("\x7bACTUAL_VALUE:").toList
  if cs.length ≥ 16 && cs.take 14 == pref && cs.getLastD ' ' == '\x7d' then
    let mid := (cs.drop 14).dropLast
    if mid.all refChar then some (String.mk mid) else none
  else none

/-- Walks an object-key reference path through the root actual tree, from
the loop of `_resolve_reference`. -/
def refGo (rp : String) : Json → List String → Except String Json
  | cur, [] => Except.ok cur
  | cur, part :: rest =>
    match cur with
    | Json.obj fields =>
      match lookupKey fields part with
      | some v => refGo rp v rest
      | none => Except.error (("Reference path not found in actual data: ") ++ rp)
    | _ => Except.error (("Reference path not found in actual data: ") ++ rp)

/-- Embeds `_resolve_reference`: a string leaf that fully matches the
placeholder pattern is replaced by the referenced value of the root actual
tree; anything else passes through unchanged. -/
def resolveReference (rootActual : Json) (e : Json) : Except String Json :=
  match e with
  | Json.str s =>
    match placeholderRef s with
    | some rp => refGo rp rootActual ((splitOnChar '.' rp.toList).map String.mk)
    | none => Except.ok e
  | _ => Except.ok e

/-- A numeric rule `\x7boperator, value\x7d` of `numeric_validations`. -/
structure NumericRule where
  operator : String
  value : Json

/-- Python `float(x)` on a simple decimal string (sign, digits, optional
fraction); scientific notation and specials are not exercised by any claim. -/
def digitsToNat (l : List Char) : Nat :=
  l.foldl (fun acc c => acc * 10 + (c.toNat - 48)) 0

/-- Parse a Python-float-accepted decimal literal to a rational. -/
def parseFloatStr (s : String) : Option Rat :=
  let cs := (s.toList.dropWhile Char.isWhitespace).reverse.dropWhile Char.isWhitespace
    |>.reverse
  let signAndRest : Int × List Char :=
    match cs with
    | '-' :: r => (-1, r)
    | '+' :: r => (1, r)
    | r => (1, r)
  let rest := signAndRest.2
  if rest.any Char.isDigit && rest.all (fun c => c.isDigit || c == '.') &&
      (rest.filter (fun c => c == '.')).length ≤ 1 then
    let intPart := rest.takeWhile (fun c => c != '.')
    let fracPart := (rest.dropWhile (fun c => c != '.')).drop 1
    let mag : Rat := (digitsToNat intPart : Rat) +
      (digitsToNat fracPart : Rat) / ((10 : Rat) ^ fracPart.length)
    some ((signAndRest.1 : Rat) * mag)
  else none

/-- Python `float(x)` as used by `_is_numeric_valid`; `None`, lists and
dicts raise (`none`). -/
def pyFloat : Json → Option Rat
  | Json.num q => some q
  | Json.bool b => some (boolRat b)
  | Json.str s => parseFloatStr s
  | _ => none

/-- Embeds `_is_numeric_valid`: coerce both sides to float (failure of
either coercion is the "not a valid number" failure), then compare with
the rule's operator. -/
def isNumericValid (a : Json) (rule : NumericRule) : Bool × String :=
  match pyFloat a, pyFloat rule.value with
  | some x, some y =>
    let ys := ratStr y
    if rule.operator == "gt" then
      if x > y then (true, ("")) else (false, ("Value is not greater than ") ++ ys)
    else if rule.operator == "lt" then
      if x < y then (true, ("")) else (false, ("Value is not less than ") ++ ys)
    else if rule.operator == "ge" then
      if x ≥ y then (true, ("")) else (false, ("Value is not greater than or equal to ") ++ ys)
    else if rule.operator == "le" then
      if x ≤ y then (true, ("")) else (false, ("Value is not less than or equal to ") ++ ys)
    else (false, ("Invalid operator: ") ++ rule.operator)
  | _, _ => (false, ("Value is not a valid number for comparison"))

/-- The options dictionary consumed by `json_difference` and
`json_validate`; absent entries are the Python falsy defaults. -/
structure Options where
  skipKeys : List String := []
  presenceKeys : List String := []
  validateOnlyKeys : List String := []
  wildcardKeys : List String := []
  notEqualKeys : List String := []
  isUuidKeys : List String := []
  isBase64Keys : List String := []
  isPanKeys : List String := []
  isAadharKeys : List String := []
  numericValidations : List (String × NumericRule) := []
  regexKeys : List (String × String) := []
  customValidators : List (String × String) := []
  customValidatorPath : Option String := none
  listValidationType : Option String := none
  requiredKeys : List String := []
  typeValidations : List (String × String) := []
  enumValidations : List (String × List Json) := []
  strictMode : Bool := false

/-- An entry of the error list: `\x7bfield, jsonpath, message\x7d`. -/
structure ErrorRec where
  field : Option String
  jsonpath : Option String
  message : String
deriving DecidableEq, Repr

/-- The result dictionary `\x7bresult, errors\x7d` of both entry points. -/
structure JResult where
  result : Bool
  errors : List ErrorRec
deriving DecidableEq, Repr

/-- Python `<` on strings: lexicographic by code point, over char lists. -/
def listCharLt : List Char → List Char → Bool
  | [], [] => false
  | [], _ :: _ => true
  | _ :: _, [] => false
  | a :: xs, b :: ys => if a == b then listCharLt xs ys else decide (a < b)

/-- Insert a string into a `<`-sorted list. -/
def insertStr (s : String) : List String → List String
  | [] => [s]
  | x :: xs => if listCharLt s.toList x.toList then s :: x :: xs else x :: insertStr s xs

/-- Python `sorted` over a set of strings (dict keys are strings). -/
def sortStrings (l : List String) : List String := l.foldr insertStr []

/-- A set of strings in first-occurrence order, Python `set` union before
`sorted` canonicalizes it. -/
def dedupStrGo (seen : List String) : List String → List String
  | [] => []
  | x :: xs =>
    if seen.contains x then dedupStrGo seen xs else x :: dedupStrGo (x :: seen) xs

/-- First-occurrence deduplication of a list of strings. -/
def dedupStr (l : List String) : List String := dedupStrGo [] l

/-- The keys of a dict, in insertion order. -/
def objKeys (l : List (String × Json)) : List String := l.map Prod.fst

/-- Python hashability of a JSON-like value: lists and dicts are unhashable. -/
def isHashable : Json → Bool
  | Json.arr _ => false
  | Json.obj _ => false
  | _ => true

/-- Python `<` between two values: numbers (and bools) by value, strings
lexicographically, any other pairing is a `TypeError` (`none`). -/
def pyLt (a b : Json) : Option Bool :=
  match a, b with
  | Json.num x, Json.num y => some (decide (x < y))
  | Json.num x, Json.bool y => some (decide (x < boolRat y))
  | Json.bool x, Json.num y => some (decide (boolRat x < y))
  | Json.bool x, Json.bool y => some (decide (boolRat x < boolRat y))
  | Json.str x, Json.str y => some (listCharLt x.toList y.toList)
  | _, _ => none

/-- Whether every pair of elements is `<`-comparable; `sorted` on a mixed
list of numbers and strings raises. -/
def allComparable (xs : List Json) : Bool :=
  xs.all (fun a => xs.all (fun b => (pyLt a b).isSome))

/-- Insert into a `pyLt`-sorted list. -/
def insertJson (a : Json) : List Json → List Json
  | [] => [a]
  | b :: rest => if (pyLt a b).getD false then a :: b :: rest else b :: insertJson a rest

/-- Python `sorted` on identity values: succeeds when all elements are
mutually comparable, raises `TypeError` otherwise. -/
def pySorted (xs : List Json) : Except String (List Json) :=
  if xs.length ≤ 1 then Except.ok xs
  else if allComparable xs then Except.ok (xs.foldr insertJson [])
  else Except.error ("TypeError: unsupported comparison between list identity values")

/-- A set of identity values under Python `==`, first occurrence kept. -/
def dedupJsonGo (seen : List Json) : List Json → List Json
  | [] => []
  | x :: xs =>
    if seen.any (fun y => pyEq y x) then dedupJsonGo seen xs
    else x :: dedupJsonGo (x :: seen) xs

/-- First-occurrence deduplication under Python `==`. -/
def dedupJson (l : List Json) : List Json := dedupJsonGo [] l

/-- Python dict assignment `m[key] = v`: an existing `==`-equal key keeps
its first key object and takes the new value, else the binding is appended. -/
def mapInsert (key v : Json) : List (Json × Json) → List (Json × Json)
  | [] => [(key, v)]
  | (k0, v0) :: rest =>
    if pyEq k0 key then (k0, v) :: rest else (k0, v0) :: mapInsert key v rest

/-- `item[k]` for a list element already known to be a dict holding `k`. -/
def objGetD (it : Json) (k : String) : Json :=
  match it with
  | Json.obj f => (lookupKey f k).getD Json.null
  | _ => Json.null

/-- The identity map `\x7bitem[k]: item for item in items\x7d` of
`compare_lists_unordered`. -/
def buildMapPy (k : String) (items : List Json) : List (Json × Json) :=
  items.foldl (fun m item => mapInsert (objGetD item k) item m) []

/-- Lookup under Python `==` key equality. -/
def lookupPyEq : List (Json × Json) → Json → Option Json
  | [], _ => none
  | (k0, v) :: rest, k => if pyEq k0 k then some v else lookupPyEq rest k

/-- The keys of an identity map. -/
def mapKeysJ (m : List (Json × Json)) : List Json := m.map Prod.fst

/-- Embeds the identity-key scan of `compare_lists_unordered`: the first of
the candidate keys present in every element of both lists. -/
def pickMatchKey (el al : List Json) : Option String :=
  ([("name"), ("id"), ("qId"), ("chanUid"), ("hubId")]).find? (fun k =>
    el.all (fun it => (isObjB it) && (match it with
      | Json.obj f => (lookupKey f k).isSome
      | _ => false)) &&
    al.all (fun it => (isObjB it) && (match it with
      | Json.obj f => (lookupKey f k).isSome
      | _ => false)))

/-- A loaded custom validator: called on (resolved expected, actual),
returning Python's `(passed, message)` pair or raising. -/
def ValidatorFn : Type := Json → Json → Except String (Bool × String)

/-- The name-to-function mapping the plugin loader returns for one source. -/
def VMap : Type := List (String × ValidatorFn)

/-- The process-wide `json_difference._validators` attribute: absent until
the first invocation that supplies a plugin source. -/
def Registry : Type := Option VMap

/-- An abstract plugin loader, `_load_custom_validators`: the spec treats
dynamic loading as an external collaborator returning a name-function map
or failing. -/
def Loader : Type := String → Except String VMap

/-- Embeds the guarded load at the top of `json_difference` (and of
`json_validate`): load only when a truthy source is supplied and the
process-wide attribute is still unset; a failure is recorded once and
cached as an empty mapping. -/
def loadStep (load : Loader) (reg : Registry) (o : Options) : Registry × List ErrorRec :=
  match o.customValidatorPath, reg with
  | some p, none =>
    if p == "" then (none, [])
    else
      match load p with
      | Except.ok m => (some m, [])
      | Except.error e =>
        (some [], [⟨none, none, ("Custom validator loading failed: ") ++ e⟩])
  | _, _ => (reg, [])

/-- The per-invocation context of the walker: the loaded validators, the
options, the abstract regex engine for `regex_keys` patterns
(`re.fullmatch pattern s`), and the root actual tree. -/
structure Ctx where
  validators : VMap
  opts : Options
  regexFull : String → String → Bool
  rootActual : Json

/-- Embeds `is_custom_validator`: a truthy method name registered for the
exact path, then looked up among the loaded validators. -/
def customValidatorFor (cx : Ctx) (p : String) : Option ValidatorFn :=
  match lookupKey cx.opts.customValidators p with
  | some name => if name == "" then none else lookupKey cx.validators name
  | none => none

/-- How one call of `json_difference` exits: through one of the two early
`return` statements of the scalar branch, or by falling through to the
final `return` that recomputes `result` from the error list. -/
inductive Outcome where
  | early (res : Bool)
  | fall
deriving DecidableEq, Repr

/-- Embeds the scalar branch of `json_difference` (lines 214-245): the
ordered cascade reference resolution, custom validator, wildcard, numeric,
UUID, Base64, PAN, Aadhaar, regex, not-equal, default equality.  The
numeric branch looks the rule up under the literal path after the gate
matched by path, leaf or suffix, so a gate hit without a literal entry is
Python's `KeyError`. -/
def scalarCompare (cx : Ctx) (e a : Json) (path : String) (errs : List ErrorRec) :
    Except String (List ErrorRec × Outcome) :=
  let field := getLeafKey path
  match resolveReference cx.rootActual e with
  | Except.error msg =>
    Except.ok (errs ++ [⟨some field, some path,
      ("Reference resolution failed: ") ++ msg⟩], Outcome.early false)
  | Except.ok re =>
    match customValidatorFor cx path with
    | some f =>
      match f re a with
      | Except.ok (true, _) => Except.ok (errs, Outcome.fall)
      | Except.ok (false, msg) => Except.ok (errs ++ [⟨some field, some path,
          ("Custom validation failed: ") ++ msg⟩], Outcome.fall)
      | Except.error em => Except.ok (errs ++ [⟨some field, some path,
          ("Custom validator raised an error: ") ++ em⟩], Outcome.fall)
    | none =>
      if isInOptions path cx.opts.wildcardKeys then Except.ok (errs, Outcome.early true)
      else if isInNumericOptions path cx.opts.numericValidations then
        match lookupKey cx.opts.numericValidations path with
        | none => Except.error (("KeyError: \x27") ++ path ++ ("\x27"))
        | some rule =>
          let r := isNumericValid a rule
          if r.1 then Except.ok (errs, Outcome.fall)
          else Except.ok (errs ++ [⟨some field, some path,
            ("Numeric validation failed: ") ++ r.2⟩], Outcome.fall)
      else if isInOptions path cx.opts.isUuidKeys then
        if (match a with | Json.str s => isUuidStr s | _ => false) then
          Except.ok (errs, Outcome.fall)
        else Except.ok (errs ++ [⟨some field, some path,
          ("UUID format mismatch: expected valid UUID, got \x27") ++ pyStr a ++ ("\x27")⟩],
          Outcome.fall)
      else if isInOptions path cx.opts.isBase64Keys then
        if (match a with | Json.str s => isBase64Str s | _ => false) then
          Except.ok (errs, Outcome.fall)
        else Except.ok (errs ++ [⟨some field, some path,
          ("Base64 format mismatch: expected valid Base64 string, got \x27") ++
            pyStr a ++ ("\x27")⟩], Outcome.fall)
      else if isInOptions path cx.opts.isPanKeys then
        if (match a with | Json.str s => isPanStr s | _ => false) then
          Except.ok (errs, Outcome.fall)
        else Except.ok (errs ++ [⟨some field, some path,
          ("PAN format mismatch: expected valid PAN, got \x27") ++ pyStr a ++ ("\x27")⟩],
          Outcome.fall)
      else if isInOptions path cx.opts.isAadharKeys then
        if (match a with | Json.str s => isAadharStr s | _ => false) then
          Except.ok (errs, Outcome.fall)
        else Except.ok (errs ++ [⟨some field, some path,
          ("Aadhaar format mismatch: expected valid Aadhaar, got \x27") ++
            pyStr a ++ ("\x27")⟩], Outcome.fall)
      else if (lookupKey cx.opts.regexKeys path).isSome then
        let pat := (lookupKey cx.opts.regexKeys path).getD ("")
        if (match a with | Json.str s => cx.regexFull pat s | _ => false) then
          Except.ok (errs, Outcome.fall)
        else Except.ok (errs ++ [⟨some field, some path,
          ("Regex mismatch: expected pattern \x27") ++ pat ++ ("\x27, got \x27") ++
            pyStr a ++ ("\x27")⟩], Outcome.fall)
      else if isInOptions path cx.opts.notEqualKeys then
        if pyEq re a then Except.ok (errs ++ [⟨some field, some path,
          ("Value should not be equal: value is \x27") ++ pyStr re ++ ("\x27")⟩],
          Outcome.fall)
        else Except.ok (errs, Outcome.fall)
      else if pyEq re a then Except.ok (errs, Outcome.fall)
      else Except.ok (errs ++ [⟨some field, some path,
        ("Value mismatch: expected \x27") ++ pyStr re ++ ("\x27, got \x27") ++
          pyStr a ++ ("\x27")⟩], Outcome.fall)

/-- The list length mismatch error of both list comparison modes. -/
def lenMismatchErr (curPath : String) (en an : Nat) : ErrorRec :=
  ⟨some (getLeafKey curPath), some curPath,
    ("List length mismatch: expected ") ++ toString en ++ (", got ") ++ toString an⟩

mutual

/-- Embeds the recursive body of `json_difference`: dict/dict goes through
the sorted key union, list/list dispatches on `list_validation_type`,
scalar/scalar runs the cascade, and the remaining type pairings fall
through silently.  The fuel argument only bounds recursion depth. -/
def jdiff (cx : Ctx) (fuel : Nat) (expected actual : Json) (path : String)
    (errs : List ErrorRec) : Except String (List ErrorRec × Outcome) :=
  match fuel with
  | 0 => Except.error ("recursion limit")
  | Nat.succ f =>
    match expected, actual with
    | Json.obj ef, Json.obj af =>
      (dgo cx f ef af path (sortStrings (dedupStr (objKeys ef ++ objKeys af))) errs).map
        (fun e2 => (e2, Outcome.fall))
    | Json.arr el, Json.arr al =>
      if cx.opts.listValidationType.getD ("unordered") == "symmetric" then
        (compareListsSymmetric cx f el al path errs).map (fun e2 => (e2, Outcome.fall))
      else
        (compareListsUnordered cx f el al path errs).map (fun e2 => (e2, Outcome.fall))
    | e, a =>
      if isContainer e || isContainer a then Except.ok (errs, Outcome.fall)
      else scalarCompare cx e a path errs
termination_by structural fuel

/-- Embeds the per-key loop of `compare_dicts` over the sorted union of
keys: skip/validate-only gating, missing/extra/presence reporting, direct
custom validator application, else recursion. -/
def dgo (cx : Ctx) (fuel : Nat) (ef af : List (String × Json)) (curPath : String)
    (keys : List String) (errs : List ErrorRec) : Except String (List ErrorRec) :=
  match fuel with
  | 0 => Except.error ("recursion limit")
  | Nat.succ f =>
    match keys with
    | [] => Except.ok errs
    | k :: ks =>
      let keyPath := joinPath curPath k
      let fieldName := getLeafKey keyPath
      let skippable := isInOptions keyPath cx.opts.skipKeys
      let shouldValidate := !skippable &&
        (cx.opts.validateOnlyKeys.isEmpty || isInOptions keyPath cx.opts.validateOnlyKeys)
      if !shouldValidate then dgo cx f ef af curPath ks errs
      else
        match lookupKey ef k, lookupKey af k with
        | _, none =>
          let msg := if isInOptions keyPath cx.opts.presenceKeys then
              ("Required key missing in actual: ") ++ keyPath
            else ("Missing key in actual: ") ++ keyPath
          dgo cx f ef af curPath ks (errs ++ [⟨some fieldName, some keyPath, msg⟩])
        | none, some _ =>
          dgo cx f ef af curPath ks (errs ++ [⟨some fieldName, some keyPath,
            ("Extra key in actual: ") ++ keyPath⟩])
        | some ev, some av =>
          if isInOptions keyPath cx.opts.presenceKeys then dgo cx f ef af curPath ks errs
          else
            match customValidatorFor cx keyPath with
            | some vf =>
              let e2 := match vf ev av with
                | Except.ok (true, _) => errs
                | Except.ok (false, msg) => errs ++ [⟨some fieldName, some keyPath,
                    ("Custom validation failed: ") ++ msg⟩]
                | Except.error em => errs ++ [⟨some fieldName, some keyPath,
                    ("Custom validator raised an error: ") ++ em⟩]
              dgo cx f ef af curPath ks e2
            | none =>
              match jdiff cx f ev av keyPath errs with
              | Except.error m => Except.error m
              | Except.ok r => dgo cx f ef af curPath ks r.1
termination_by structural fuel

/-- Embeds `compare_lists_symmetric`: report a length mismatch once, then
compare positionally up to the shorter length. -/
def compareListsSymmetric (cx : Ctx) (fuel : Nat) (el al : List Json) (curPath : String)
    (errs : List ErrorRec) : Except String (List ErrorRec) :=
  match fuel with
  | 0 => Except.error ("recursion limit")
  | Nat.succ f =>
    let errs1 := if el.length != al.length then
        errs ++ [lenMismatchErr curPath el.length al.length]
      else errs
    sgo cx f curPath 0 el al errs1
termination_by structural fuel

/-- The positional loop shared by symmetric comparison and the unordered
fallback: walks both lists together, indexing the path. -/
def sgo (cx : Ctx) (fuel : Nat) (curPath : String) (i : Nat) (el al : List Json)
    (errs : List ErrorRec) : Except String (List ErrorRec) :=
  match fuel with
  | 0 => Except.error ("recursion limit")
  | Nat.succ f =>
    match el, al with
    | x :: xs, y :: ys =>
      match jdiff cx f x y (curPath ++ ("[") ++ toString i ++ ("]")) errs with
      | Except.error m => Except.error m
      | Except.ok r => sgo cx f curPath (i + 1) xs ys r.1
    | _, _ => Except.ok errs
termination_by structural fuel

/-- Embeds `compare_lists_unordered`: fall back to symmetric when any
element is not a dict; otherwise reconcile by the first candidate identity
key present everywhere, building Python identity maps (which raises on
unhashable identities) and walking the sorted union of identities (which
raises on incomparable identities). -/
def compareListsUnordered (cx : Ctx) (fuel : Nat) (el al : List Json) (curPath : String)
    (errs : List ErrorRec) : Except String (List ErrorRec) :=
  match fuel with
  | 0 => Except.error ("recursion limit")
  | Nat.succ f =>
    if !((el ++ al).all isObjB) then compareListsSymmetric cx f el al curPath errs
    else
      match pickMatchKey el al with
      | some k =>
        if ((el ++ al).map (fun it => objGetD it k)).all isHashable then
          let em := buildMapPy k el
          let am := buildMapPy k al
          match pySorted (dedupJson (mapKeysJ em ++ mapKeysJ am)) with
          | Except.error m => Except.error m
          | Except.ok ids => ugo cx f k curPath em am ids errs
        else Except.error ("TypeError: unhashable list identity value")
      | none =>
        let errs1 := if el.length != al.length then
            errs ++ [lenMismatchErr curPath el.length al.length]
          else errs
        sgo cx f curPath 0 el al errs1
termination_by structural fuel

/-- The identity loop of `compare_lists_unordered` over the sorted union of
identity values: recurse on matched pairs at `parent[key=value]`, report
missing/extra items otherwise. -/
def ugo (cx : Ctx) (fuel : Nat) (k curPath : String) (em am : List (Json × Json))
    (ids : List Json) (errs : List ErrorRec) : Except String (List ErrorRec) :=
  match fuel with
  | 0 => Except.error ("recursion limit")
  | Nat.succ f =>
    match ids with
    | [] => Except.ok errs
    | idv :: rest =>
      let ipath := curPath ++ ("[") ++ k ++ ("=") ++ pyStr idv ++ ("]")
      let ifield := getLeafKey ipath
      match lookupPyEq em idv, lookupPyEq am idv with
      | some ev, some av =>
        match jdiff cx f ev av ipath errs with
        | Except.error m => Except.error m
        | Except.ok r => ugo cx f k curPath em am rest r.1
      | some _, none => ugo cx f k curPath em am rest (errs ++ [⟨some ifield, some ipath,
          ("Missing item in actual list at ") ++ ipath⟩])
      | none, some _ => ugo cx f k curPath em am rest (errs ++ [⟨some ifield, some ipath,
          ("Extra item in actual list at ") ++ ipath⟩])
      | none, none => ugo cx f k curPath em am rest errs
termination_by structural fuel

end

mutual

/-- The node count of a tree, used only to budget fuel. -/
def jweight : Json → Nat
  | Json.null => 1
  | Json.bool _ => 1
  | Json.num _ => 1
  | Json.str _ => 1
  | Json.arr l => 1 + jweightList l
  | Json.obj fs => 1 + jweightFields fs
termination_by structural x => x

/-- Node count of a list of trees. -/
def jweightList : List Json → Nat
  | [] => 0
  | x :: xs => 1 + jweight x + jweightList xs
termination_by structural x => x

/-- Node count of a field list. -/
def jweightFields : List (String × Json) → Nat
  | [] => 0
  | (_, v) :: rest => 1 + jweight v + jweightFields rest
termination_by structural x => x

end

/-- Fuel that exceeds any recursion the walker performs on the two trees. -/
def fuelFor (e a : Json) : Nat := (jweight e + jweight a) * 8 + 64

/-- Runs one `json_difference` comparison with an already-settled validator
mapping and the errors accumulated before the walk (a failed plugin load);
the top-level `result` honours the two early returns of the scalar branch. -/
def runComparison (validators : VMap) (errs0 : List ErrorRec) (e a : Json) (o : Options)
    (rx : String → String → Bool) : Except String JResult :=
  match jdiff ⟨validators, o, rx, a⟩ (fuelFor e a) e a ("") errs0 with
  | Except.error m => Except.error m
  | Except.ok r =>
    Except.ok ⟨(match r.2 with | Outcome.early b => b | Outcome.fall => r.1.isEmpty), r.1⟩

/-- Embeds a top-level call of `json_difference`: perform the guarded
plugin load against the process-wide registry, then walk the trees with
the cached mapping; returns the registry afterwards and the result (or the
exception the walk raised). -/
def jsonDifference (load : Loader) (reg : Registry) (e a : Json) (o : Options)
    (rx : String → String → Bool) : Registry × Except String JResult :=
  ((loadStep load reg o).1,
    runComparison ((loadStep load reg o).1.getD []) (loadStep load reg o).2 e a o rx)

/-- Python `type(x).__name__`; the int/float distinction of the `Rat`
model follows integrality and is not exercised by any claim. -/
def pyTypeName : Json → String
  | Json.null => ("NoneType")
  | Json.bool _ => ("bool")
  | Json.num q => if q.den == 1 then ("int") else ("float")
  | Json.str _ => ("str")
  | Json.arr _ => ("list")
  | Json.obj _ => ("dict")

/-- The `type_map` of the general branch of the type check. -/
def typeNameMapped (n : String) : String :=
  if n == "str" then ("string")
  else if n == "int" then ("number")
  else if n == "float" then ("number")
  else if n == "bool" then ("boolean")
  else if n == "list" then ("array")
  else if n == "dict" then ("object")
  else n

/-- The type check of `validate_field` (it records an error but does not
return, so later rules still run). -/
def typeCheckErrs (field path : String) (dv : Json) (et : String) : List ErrorRec :=
  let mk := fun (want got : String) => [(⟨some field, some path,
    ("Type mismatch: expected ") ++ want ++ (", got ") ++ got⟩ : ErrorRec)]
  if et == "number" then
    match dv with
    | Json.num _ => []
    | Json.bool _ => []
    | _ => mk ("number") (pyTypeName dv)
  else if et == "string" then
    match dv with
    | Json.str _ => []
    | _ => mk ("string") (pyTypeName dv)
  else if et == "boolean" then
    match dv with
    | Json.bool _ => []
    | _ => mk ("boolean") (pyTypeName dv)
  else if et == "array" then
    match dv with
    | Json.arr _ => []
    | _ => mk ("array") (pyTypeName dv)
  else if et == "object" then
    match dv with
    | Json.obj _ => []
    | _ => mk ("object") (pyTypeName dv)
  else if et == "any" then []
  else
    let mapped := typeNameMapped (pyTypeName dv)
    if mapped == et then [] else mk et mapped

/-- Embeds `validate_field` of `json_validate`: custom validator, then the
non-returning type check, then the returning cascade wildcard, UUID, PAN,
Aadhaar, regex, enum, numeric.  There is no Base64 branch, no not-equal
branch and no default equality check in this cascade. -/
def validateField (validators : VMap) (o : Options) (rx : String → String → Bool)
    (dataValue contractValue : Json) (path : String) : List ErrorRec :=
  let field := getLeafKey path
  let custom := match lookupKey o.customValidators path with
    | some name => if name == "" then none else lookupKey validators name
    | none => none
  match custom with
  | some fn =>
    match fn contractValue dataValue with
    | Except.ok (true, _) => []
    | Except.ok (false, msg) => [⟨some field, some path,
        ("Custom validation failed: ") ++ msg⟩]
    | Except.error em => [⟨some field, some path,
        ("Custom validator raised an error: ") ++ em⟩]
  | none =>
    let typeErrs := match lookupKey o.typeValidations path with
      | some et => if et == "" then [] else typeCheckErrs field path dataValue et
      | none => []
    typeErrs ++ (
      if isInOptions path o.wildcardKeys then []
      else if isInOptions path o.isUuidKeys then
        if (match dataValue with | Json.str s => isUuidStr s | _ => false) then []
        else [⟨some field, some path,
          ("UUID format mismatch: expected valid UUID, got \x27") ++
            pyStr dataValue ++ ("\x27")⟩]
      else if isInOptions path o.isPanKeys then
        if (match dataValue with | Json.str s => isPanStr s | _ => false) then []
        else [⟨some field, some path,
          ("PAN format mismatch: expected valid PAN, got \x27") ++
            pyStr dataValue ++ ("\x27")⟩]
      else if isInOptions path o.isAadharKeys then
        if (match dataValue with | Json.str s => isAadharStr s | _ => false) then []
        else [⟨some field, some path,
          ("Aadhaar format mismatch: expected valid Aadhaar, got \x27") ++
            pyStr dataValue ++ ("\x27")⟩]
      else if (match lookupKey o.regexKeys path with
          | some p => p != ""
          | none => false) then
        let pat := (lookupKey o.regexKeys path).getD ("")
        if (match dataValue with | Json.str s => rx pat s | _ => false) then []
        else [⟨some field, some path,
          ("Regex mismatch: expected pattern \x27") ++ pat ++ ("\x27, got \x27") ++
            pyStr dataValue ++ ("\x27")⟩]
      else if (match lookupKey o.enumValidations path with
          | some l => !l.isEmpty
          | none => false) then
        let allowed := (lookupKey o.enumValidations path).getD []
        if allowed.any (fun v => pyEq dataValue v) then []
        else [⟨some field, some path,
          ("Enum validation failed: Value \x27") ++ pyStr dataValue ++
            ("\x27 is not in allowed values: ") ++ pyStr (Json.arr allowed)⟩]
      else if (lookupKey o.numericValidations path).isSome then
        let rule := (lookupKey o.numericValidations path).getD ⟨("gt"), Json.null⟩
        match pyFloat dataValue, pyFloat rule.value with
        | some x, some y =>
          let ys := ratStr y
          if rule.operator == "gt" then
            if x > y then [] else [⟨some field, some path,
              ("Numeric validation failed: Value is not greater than ") ++ ys⟩]
          else if rule.operator == "lt" then
            if x < y then [] else [⟨some field, some path,
              ("Numeric validation failed: Value is not less than ") ++ ys⟩]
          else if rule.operator == "ge" then
            if x ≥ y then [] else [⟨some field, some path,
              ("Numeric validation failed: Value is not greater than or equal to ") ++ ys⟩]
          else if rule.operator == "le" then
            if x ≤ y then [] else [⟨some field, some path,
              ("Numeric validation failed: Value is not less than or equal to ") ++ ys⟩]
          else if rule.operator == "eq" then
            if x == y then [] else [⟨some field, some path,
              ("Numeric validation failed: Value is not equal to ") ++ ys⟩]
          else if rule.operator == "ne" then
            if x != y then [] else [⟨some field, some path,
              ("Numeric validation failed: Value is equal to ") ++ ys⟩]
          else []
        | _, _ => [⟨some field, some path,
            ("Numeric validation failed: Value \x27") ++ pyStr dataValue ++
              ("\x27 is not a valid number")⟩]
      else [])

/-- The strict-mode sweep of `validate_dict`: data keys absent from the
contract at this level. -/
def strictExtras (contractFields : List (String × Json)) (curPath : String) :
    List (String × Json) → List ErrorRec
  | [] => []
  | (key, _) :: rest =>
    let keyPath := joinPath curPath key
    (if (lookupKey contractFields key).isNone then
      [(⟨some key, some keyPath, ("Extra key not in contract: ") ++ keyPath⟩ : ErrorRec)]
    else []) ++ strictExtras contractFields curPath rest

mutual

/-- Embeds `validate_dict`: iterate the contract's bindings in insertion
order (required-key reporting, recursion, field validation), then the
strict-mode sweep. -/
def validateDict (V : VMap) (o : Options) (rx : String → String → Bool) (fuel : Nat)
    (dataFields contractFields : List (String × Json)) (curPath : String) :
    Except String (List ErrorRec) :=
  match fuel with
  | 0 => Except.error ("recursion limit")
  | Nat.succ f =>
    match vgo V o rx f dataFields contractFields curPath contractFields with
    | Except.error m => Except.error m
    | Except.ok es =>
      Except.ok (es ++ (if o.strictMode then strictExtras contractFields curPath dataFields
        else []))
termination_by structural fuel

/-- The contract-binding loop of `validate_dict`. -/
def vgo (V : VMap) (o : Options) (rx : String → String → Bool) (fuel : Nat)
    (dataFields contractFields : List (String × Json)) (curPath : String)
    (remaining : List (String × Json)) : Except String (List ErrorRec) :=
  match fuel with
  | 0 => Except.error ("recursion limit")
  | Nat.succ f =>
    match remaining with
    | [] => Except.ok []
    | (key, cval) :: rest =>
      let keyPath := joinPath curPath key
      match lookupKey dataFields key with
      | none =>
        let here := if isInOptions keyPath o.requiredKeys then
            [(⟨some key, some keyPath, ("Required key missing: ") ++ keyPath⟩ : ErrorRec)]
          else []
        match vgo V o rx f dataFields contractFields curPath rest with
        | Except.error m => Except.error m
        | Except.ok es => Except.ok (here ++ es)
      | some dval =>
        let sub : Except String (List ErrorRec) :=
          match cval, dval with
          | Json.obj cf, Json.obj df => validateDict V o rx f df cf keyPath
          | Json.arr cl, Json.arr dl => validateList V o rx f dl cl keyPath
          | _, _ => Except.ok (validateField V o rx dval cval keyPath)
        match sub with
        | Except.error m => Except.error m
        | Except.ok here =>
          match vgo V o rx f dataFields contractFields curPath rest with
          | Except.error m => Except.error m
          | Except.ok es => Except.ok (here ++ es)
termination_by structural fuel

/-- Embeds `validate_list`: an empty contract list validates nothing, else
every data element is validated against the first contract element. -/
def validateList (V : VMap) (o : Options) (rx : String → String → Bool) (fuel : Nat)
    (dataList contractList : List Json) (curPath : String) :
    Except String (List ErrorRec) :=
  match fuel with
  | 0 => Except.error ("recursion limit")
  | Nat.succ f =>
    match contractList with
    | [] => Except.ok []
    | template :: _ => lgo V o rx f template curPath 0 dataList
termination_by structural fuel

/-- The data-element loop of `validate_list`. -/
def lgo (V : VMap) (o : Options) (rx : String → String → Bool) (fuel : Nat)
    (template : Json) (curPath : String) (i : Nat) (items : List Json) :
    Except String (List ErrorRec) :=
  match fuel with
  | 0 => Except.error ("recursion limit")
  | Nat.succ f =>
    match items with
    | [] => Except.ok []
    | item :: rest =>
      let ipath := curPath ++ ("[") ++ toString i ++ ("]")
      let sub : Except String (List ErrorRec) :=
        match template, item with
        | Json.obj cf, Json.obj df => validateDict V o rx f df cf ipath
        | Json.arr cl, Json.arr dl => validateList V o rx f dl cl ipath
        | _, _ => Except.ok (validateField V o rx item template ipath)
      match sub with
      | Except.error m => Except.error m
      | Except.ok here =>
        match lgo V o rx f template curPath (i + 1) rest with
        | Except.error m => Except.error m
        | Except.ok es => Except.ok (here ++ es)
termination_by structural fuel

end

/-- Embeds a top-level call of `json_validate`: its own guarded plugin load
against its own process-wide registry, then shape validation; the result is
always `errors.isEmpty`. -/
def jsonValidate (load : Loader) (reg : Registry) (data contract : Json) (o : Options)
    (rx : String → String → Bool) : Registry × Except String JResult :=
  let s := loadStep load reg o
  let validators := s.1.getD []
  let body : Except String (List ErrorRec) :=
    match data, contract with
    | Json.obj df, Json.obj cf => validateDict validators o rx (fuelFor data contract) df cf ("")
    | Json.arr dl, Json.arr cl => validateList validators o rx (fuelFor data contract) dl cl ("")
    | d, c => Except.ok (validateField validators o rx d c (""))
  (s.1, match body with
    | Except.error m => Except.error m
    | Except.ok es => Except.ok ⟨(s.2 ++ es).isEmpty, s.2 ++ es⟩)

mutual

/-- No string leaf of the tree matches the `ACTUAL_VALUE` placeholder
pattern, so reference resolution is the identity on every leaf. -/
def noPlaceholder : Json → Bool
  | Json.str s => (placeholderRef s).isNone
  | Json.arr l => noPlaceholderList l
  | Json.obj fs => noPlaceholderFields fs
  | _ => true
termination_by structural x => x

/-- `noPlaceholder` on every element. -/
def noPlaceholderList : List Json → Bool
  | [] => true
  | x :: xs => noPlaceholder x && noPlaceholderList xs
termination_by structural x => x

/-- `noPlaceholder` on every field value. -/
def noPlaceholderFields : List (String × Json) → Bool
  | [] => true
  | (_, v) :: rest => noPlaceholder v && noPlaceholderFields rest
termination_by structural x => x

end

/-- A plugin loader whose source is always inaccessible. -/
def noLoad : Loader := fun _ => Except.error ("file not found")

/-- A regex engine on which every full-match test fails; a run that records
no regex error under it never consulted the pattern. -/
def regexNever : String → String → Bool := fun _ _ => false

/-- Options of the C1 failing input: a plugin source that fails to load
plus a wildcard entry matching the top-level (empty) path. -/
def c1opts : Options := { customValidatorPath := some ("missing.py"), wildcardKeys := [("")] }

/-- Options of the C2 failing input: a numeric rule registered under the
leaf key `x` only. -/
def c2opts : Options := { numericValidations := [(("x"), ⟨("gt"), Json.num 0⟩)] }

/-- The C2 failing input tree `\x7b"a": \x7b"x": 1\x7d\x7d`. -/
def c2tree : Json := Json.obj [(("a"), Json.obj [(("x"), Json.num 1)])]

/-- Options of the C3 counterexample: a regex rule registered under the
leaf key `k` only. -/
def c3opts : Options := { regexKeys := [(("k"), ("[0-9]+"))] }

/-- The C3 counterexample tree `\x7b"a": \x7b"k": "zz"\x7d\x7d`. -/
def c3tree : Json := Json.obj [(("a"), Json.obj [(("k"), Json.str ("zz"))])]

/-- C3 witness fixture: a numeric map keyed by the leaf `n` only. -/
def c3wOpts : Options := { numericValidations := [(("n"), ⟨("lt"), Json.num 9⟩)] }

/-- The expected tree of the reference-resolution example (C4). -/
def c4exp : Json := Json.obj [(("id"), Json.str ("\x7bACTUAL_VALUE:meta.id\x7d"))]

/-- The first actual tree of the C4 example: `meta.id` agrees with `id`. -/
def c4act1 : Json :=
  Json.obj [(("id"), Json.str ("X")), (("meta"), Json.obj [(("id"), Json.str ("X"))])]

/-- The second actual tree of the C4 example: `meta.id` differs from `id`. -/
def c4act2 : Json :=
  Json.obj [(("id"), Json.str ("X")), (("meta"), Json.obj [(("id"), Json.str ("Y"))])]

/-- The C5 counterexample: a tree whose leaf `a` is a placeholder
referencing sibling `b`, so self-comparison resolves `a` to `1`. -/
def c5bad : Json :=
  Json.obj [(("a"), Json.str ("\x7bACTUAL_VALUE:b\x7d")), (("b"), Json.num 1)]

/-- A placeholder-free witness tree for the amended C5. -/
def c5good : Json :=
  Json.obj [(("id"), Json.str ("X")),
    (("items"), Json.arr [Json.obj [(("id"), Json.num 1), (("v"), Json.null)]]),
    (("n"), Json.num 3)]

/-- A custom validator that always passes (loaded from source `A`). -/
def okValidator : ValidatorFn := fun _ _ => Except.ok (true, (""))

/-- A custom validator that always fails (loaded from source `B`). -/
def badValidator : ValidatorFn := fun _ _ => Except.ok (false, ("bad"))

/-- A loader with two distinct sources resolving the name `v` to different
functions. -/
def loadAB : Loader := fun s =>
  if s == "A" then Except.ok [(("v"), okValidator)] else Except.ok [(("v"), badValidator)]

/-- Options naming plugin source `A` and using no validator. -/
def srcAOpts : Options := { customValidatorPath := some ("A") }

/-- Options naming plugin source `B` and binding path `x` to validator `v`. -/
def c6opts : Options :=
  { customValidatorPath := some ("B"), customValidators := [(("x"), ("v"))] }

/-- The registry after a first invocation that loaded source `A`. -/
def regAfterA : Registry :=
  (jsonDifference loadAB none Json.null Json.null srcAOpts regexNever).1

/-- C6 expected tree `\x7b"x": 1\x7d`. -/
def c6exp : Json := Json.obj [(("x"), Json.num 1)]

/-- C6 actual tree `\x7b"x": 2\x7d`. -/
def c6act : Json := Json.obj [(("x"), Json.num 2)]

/-- C7 list element `\x7b"id": 1, "v": "a"\x7d`. -/
def c7item1 : Json := Json.obj [(("id"), Json.num 1), (("v"), Json.str ("a"))]

/-- C7 list element `\x7b"id": 2, "v": "b"\x7d`. -/
def c7item2 : Json := Json.obj [(("id"), Json.num 2), (("v"), Json.str ("b"))]

/-- Options selecting the symmetric list mode. -/
def symOpts : Options := { listValidationType := some ("symmetric") }

/-- C7 element carrying both `name` and `id` (to observe key priority). -/
def c7name1 : Json := Json.obj [(("name"), Json.str ("a")), (("id"), Json.num 1)]

/-- C7 element with the same `id` but another `name`. -/
def c7name2 : Json := Json.obj [(("name"), Json.str ("b")), (("id"), Json.num 1)]

/-- Options of the C8 example: a Base64 rule for the leaf key `b`. -/
def c8opts : Options := { isBase64Keys := [("b")] }

/-- C8 actual data `\x7b"b": "!!!"\x7d`, not valid Base64. -/
def c8data : Json := Json.obj [(("b"), Json.str ("!!!"))]

/-- C8 contract/expected tree `\x7b"b": "x"\x7d`. -/
def c8contract : Json := Json.obj [(("b"), Json.str ("x"))]

/-- C8 witness fixture: a Base64 rule for the leaf key `c` with another
invalid literal. -/
def c8wOpts : Options := { isBase64Keys := [("c")] }

/-- C8 witness data `\x7b"c": "not base64!"\x7d`. -/
def c8wData : Json := Json.obj [(("c"), Json.str ("not base64!"))]

/-- C8 witness contract `\x7b"c": "y"\x7d`. -/
def c8wContract : Json := Json.obj [(("c"), Json.str ("y"))]

/-- Options of the C9 example: validate only the key `a`. -/
def c9opts : Options := { validateOnlyKeys := [("a")] }

/-- Options of the C9 contrast: validate the keys `a` and `b`. -/
def c9optsB : Options := { validateOnlyKeys := [("a"), ("b")] }

/-- C9 expected tree `\x7b"a": \x7b"b": 1\x7d\x7d`. -/
def c9exp : Json := Json.obj [(("a"), Json.obj [(("b"), Json.num 1)])]

/-- C9 actual tree `\x7b"a": \x7b"b": 2\x7d\x7d`, differing under `a.b`. -/
def c9act : Json := Json.obj [(("a"), Json.obj [(("b"), Json.num 2)])]

/-- Options of the C10 witness: a misspelled list mode. -/
def c10opts : Options := { listValidationType := some ("unorderd") }

/-- C1: the claim states that the returned `result` is true iff the error
list is empty, also when a wildcard-matched scalar is the top-level
comparison after a failed custom-validator load.  The code violates this:
at the C1 failing input the wildcard early return yields `result = true`
while the load-failure error is already in the list, contradicting the
function's own docstring ("True if no errors, False otherwise"). -/
theorem C1_wildcard_result_bug :
    (jsonDifference noLoad none (Json.num 1) (Json.num 2) c1opts regexNever).2 =
      Except.ok ⟨true,
        [⟨none, none, ("Custom validator loading failed: file not found")⟩]⟩ ∧
    [(⟨none, none, ("Custom validator loading failed: file not found")⟩ : ErrorRec)] ≠ [] :=
  ⟨rfl, by decide⟩

/-- C2: the claim states `json_difference` always returns normally with all
failures collected.  The code violates this: with a numeric rule registered
under the leaf key `x`, the gate matches path `a.x` but the rule lookup
`options["numeric_validations"][path]` uses the literal path and raises
`KeyError`, which propagates out of the walk. -/
theorem C2_numeric_keyerror :
    (jsonDifference noLoad none c2tree c2tree c2opts regexNever).2 =
      Except.error (("KeyError: \x27a.x\x27")) :=
  rfl

/-- C4 counterexample: the claim asserts zero errors for expected
`\x7bid: placeholder\x7d` against actual `\x7bid: X, meta: \x7bid: X\x7d\x7d`,
but the walker reports the actual-only key `meta` as an extra key, so the
error list is not empty. -/
theorem C4_counterexample :
    (jsonDifference noLoad none c4exp c4act1 {} regexNever).2 =
      Except.ok ⟨false, [⟨some ("meta"), some ("meta"), ("Extra key in actual: meta")⟩]⟩ :=
  rfl

/-- C4 amended: the reference itself resolves and compares clean, but both
comparisons also report the extra key `meta`; the agreeing case yields
exactly that one extra-key error, and the disagreeing case yields exactly
the mismatch at `id` (against the resolved value `Y`) followed by the
extra-key error. -/
theorem C4_amended :
    (jsonDifference noLoad none c4exp c4act1 {} regexNever).2 =
      Except.ok ⟨false, [⟨some ("meta"), some ("meta"), ("Extra key in actual: meta")⟩]⟩ ∧
    (jsonDifference noLoad none c4exp c4act2 {} regexNever).2 =
      Except.ok ⟨false,
        [⟨some ("id"), some ("id"), ("Value mismatch: expected \x27Y\x27, got \x27X\x27")⟩,
         ⟨some ("meta"), some ("meta"), ("Extra key in actual: meta")⟩]⟩ :=
  ⟨rfl, rfl⟩

/-- C5 counterexample: the claim asserts zero errors for any well-formed
tree compared against itself under default options, including placeholder
leaves; but a placeholder leaf resolves against the root actual tree, so
`\x7ba: placeholder-for-b, b: 1\x7d` compared with itself reports a
mismatch at `a` between the resolved `1` and the literal placeholder. -/
theorem C5_counterexample :
    (jsonDifference noLoad none c5bad c5bad {} regexNever).2 =
      Except.ok ⟨false, [⟨some ("a"), some ("a"),
        ("Value mismatch: expected \x271\x27, got \x27\x7bACTUAL_VALUE:b\x7d\x27")⟩]⟩ :=
  rfl

/-- C7 counterexample: the claim asserts exactly two mismatch errors for
the swapped pair under symmetric mode, but each swapped position reports
both of its differing fields (`id` and `v`), four mismatches in all. -/
theorem C7_counterexample :
    (jsonDifference noLoad none (Json.arr [c7item1, c7item2]) (Json.arr [c7item2, c7item1])
        symOpts regexNever).2 =
      Except.ok ⟨false,
        [⟨some ("id"), some ("[0].id"), ("Value mismatch: expected \x271\x27, got \x272\x27")⟩,
         ⟨some ("v"), some ("[0].v"), ("Value mismatch: expected \x27a\x27, got \x27b\x27")⟩,
         ⟨some ("id"), some ("[1].id"), ("Value mismatch: expected \x272\x27, got \x271\x27")⟩,
         ⟨some ("v"), some ("[1].v"), ("Value mismatch: expected \x27b\x27, got \x27a\x27")⟩]⟩ :=
  rfl

/-- C7 amended: unordered reconciliation pairs the swapped elements by the
identity key `id` and yields zero errors, while symmetric mode yields four
mismatches (two per swapped position); the identity key is chosen by the
fixed priority order (`name` wins over `id` when both are present in every
element), expected-only identities report "missing in actual" and
actual-only identities report "extra in actual" at `parent[key=value]`. -/
theorem C7_amended :
    (jsonDifference noLoad none (Json.arr [c7item1, c7item2]) (Json.arr [c7item2, c7item1])
        {} regexNever).2 = Except.ok ⟨true, []⟩ ∧
    (jsonDifference noLoad none (Json.arr [c7item1, c7item2]) (Json.arr [c7item2, c7item1])
        symOpts regexNever).2 =
      Except.ok ⟨false,
        [⟨some ("id"), some ("[0].id"), ("Value mismatch: expected \x271\x27, got \x272\x27")⟩,
         ⟨some ("v"), some ("[0].v"), ("Value mismatch: expected \x27a\x27, got \x27b\x27")⟩,
         ⟨some ("id"), some ("[1].id"), ("Value mismatch: expected \x272\x27, got \x271\x27")⟩,
         ⟨some ("v"), some ("[1].v"), ("Value mismatch: expected \x27b\x27, got \x27a\x27")⟩]⟩ ∧
    pickMatchKey [c7name1] [c7name2] = some ("name") ∧
    (jsonDifference noLoad none (Json.arr [c7name1]) (Json.arr [c7name2]) {} regexNever).2 =
      Except.ok ⟨false,
        [⟨some (""), some ("[name=a]"), ("Missing item in actual list at [name=a]")⟩,
         ⟨some (""), some ("[name=b]"), ("Extra item in actual list at [name=b]")⟩]⟩ :=
  ⟨rfl, rfl, rfl, rfl⟩

/-- C8 counterexample: the claim asserts `json_validate` reports a Base64
format error wherever `json_difference` does; but `validate_field` has no
Base64 branch at all, so with `is_base64_keys` naming `b` and the invalid
literal `!!!`, `json_validate` passes while `json_difference` reports the
format error. -/
theorem C8_counterexample :
    (jsonValidate noLoad none c8data c8contract c8opts regexNever).2 =
      Except.ok ⟨true, []⟩ ∧
    (jsonDifference noLoad none c8contract c8data c8opts regexNever).2 =
      Except.ok ⟨false, [⟨some ("b"), some ("b"),
        ("Base64 format mismatch: expected valid Base64 string, got \x27!!!\x27")⟩]⟩ ∧
    isBase64Str ("!!!") = false :=
  ⟨rfl, rfl, rfl⟩

/-- C6 counterexample: the claim asserts each invocation uses the mapping
loaded from its own supplied source; but the cache is a single process-wide
attribute, so after a first load of source `A`, an invocation supplying
source `B` (whose validator `v` always fails) still runs `A`'s
always-passing `v` and reports no error, while the same invocation in a
fresh process reports `B`'s failure. -/
theorem C6_counterexample :
    (jsonDifference loadAB regAfterA c6exp c6act c6opts regexNever).2 =
      Except.ok ⟨true, []⟩ ∧
    (jsonDifference loadAB none c6exp c6act c6opts regexNever).2 =
      Except.ok ⟨false, [⟨some ("x"), some ("x"), ("Custom validation failed: bad")⟩]⟩ :=
  ⟨rfl, rfl⟩

/-- C3 counterexample: the claim asserts the path/leaf/suffix matching
discipline applies to `regex_keys` as it does to list-valued rule sets;
but the regex branch consults only the literal path.  The leaf key `k`
governs path `a.k` under the discipline, yet under a regex engine that
fails every match the comparison still records no error, so the registered
pattern was never applied. -/
theorem C3_counterexample :
    isInOptions ("a.k") [("k")] = true ∧
    (jsonDifference noLoad none c3tree c3tree c3opts regexNever).2 =
      Except.ok ⟨true, []⟩ :=
  ⟨rfl, rfl⟩

/-- C10: any `list_validation_type` other than the string `symmetric`
(including misspellings) silently dispatches a list/list comparison to
unordered reconciliation, recording no configuration error: the walker
step equals the unordered comparison exactly. -/
theorem C10_unrecognized_mode_is_unordered (cx : Ctx) (f : Nat) (el al : List Json)
    (p : String) (errs : List ErrorRec)
    (h : cx.opts.listValidationType ≠ some ("symmetric")) :
    jdiff cx (Nat.succ f) (Json.arr el) (Json.arr al) p errs =
      (compareListsUnordered cx f el al p errs).map (fun e2 => (e2, Outcome.fall)) := by
  have hb : (cx.opts.listValidationType.getD ("unordered") == ("symmetric")) = false := by
    cases hlvt : cx.opts.listValidationType with
    | none => rfl
    | some v =>
      simp only [Option.getD]
      exact beq_eq_false_iff_ne.mpr (fun hv => h (hlvt ▸ hv ▸ rfl))
  simp only [jdiff, hb, Bool.false_eq_true, if_false]

/-- C10 witness: a misspelled mode `unorderd` takes the unordered path at a
concrete input. -/
theorem C10_witness :
    jdiff (Ctx.mk [] c10opts regexNever Json.null) (Nat.succ 7) (Json.arr []) (Json.arr [])
        ("") [] =
      (compareListsUnordered (Ctx.mk [] c10opts regexNever Json.null) 7 [] [] ("") []).map
        (fun e2 => (e2, Outcome.fall)) :=
  C10_unrecognized_mode_is_unordered (Ctx.mk [] c10opts regexNever Json.null) 7 [] [] ("") []
    (by decide)

/-- C6 amended: the registry is one process-wide cache.  Once populated
with a mapping `m`, any invocation leaves it untouched and runs with `m`
regardless of the source it supplies; an unpopulated registry with a
truthy source that fails to load caches the empty mapping and reports the
load failure once. -/
theorem C6_amended :
    (∀ (load : Loader) (m : VMap) (e a : Json) (o : Options) (rx : String → String → Bool),
      (jsonDifference load (some m) e a o rx).1 = some m) ∧
    (∀ (load : Loader) (m : VMap) (e a : Json) (o : Options) (rx : String → String → Bool),
      (jsonDifference load (some m) e a o rx).2 = runComparison m [] e a o rx) ∧
    (∀ (load : Loader) (o : Options) (p : String), o.customValidatorPath = some p →
      (p == ("")) = false → ∀ msg, load p = Except.error msg →
      loadStep load none o = (some [], [⟨none, none,
        ("Custom validator loading failed: ") ++ msg⟩])) := by
  refine ⟨?_, ?_, ?_⟩
  · intro load m e a o rx
    cases h : o.customValidatorPath <;> simp [jsonDifference, loadStep, h]
  · intro load m e a o rx
    cases h : o.customValidatorPath <;> simp [jsonDifference, loadStep, h]
  · intro load o p hp hne msg hload
    simp [loadStep, hp, hne, hload]

/-- C6 witness: a populated registry survives an invocation untouched, and
a failed first load is cached as the empty mapping plus one error. -/
theorem C6_amended_witness :
    (jsonDifference noLoad (some []) Json.null Json.null {} regexNever).1 = some [] ∧
    loadStep noLoad none { customValidatorPath := some ("missing.py") } =
      (some [], [⟨none, none, ("Custom validator loading failed: file not found")⟩]) :=
  ⟨C6_amended.1 noLoad [] Json.null Json.null {} regexNever,
   C6_amended.2.2 noLoad { customValidatorPath := some ("missing.py") } ("missing.py")
     rfl rfl ("file not found") rfl⟩

/-- C8 amended: `validate_field` never consults `is_base64_keys` — with
only that option set it reports nothing for any value at any path — while
`json_difference` reports the Base64 format error at a matched path with
an invalid literal. -/
theorem C8_amended :
    (∀ (V : VMap) (rx : String → String → Bool) (dv cv : Json) (p : String)
      (ks : List String), validateField V { isBase64Keys := ks } rx dv cv p = []) ∧
    (jsonValidate noLoad none c8wData c8wContract c8wOpts regexNever).2 =
      Except.ok ⟨true, []⟩ ∧
    (jsonDifference noLoad none c8wContract c8wData c8wOpts regexNever).2 =
      Except.ok ⟨false, [⟨some ("c"), some ("c"),
        ("Base64 format mismatch: expected valid Base64 string, got \x27not base64!\x27")⟩]⟩ ∧
    isBase64Str ("not base64!") = false :=
  ⟨fun _ _ _ _ _ _ => rfl, rfl, rfl, rfl⟩

/-- C9: with a non-empty `validate_only_keys`, a key whose own path does
not match is skipped outright by the per-key loop, whatever its value
holds; concretely, matching the parent `a` alone leaves the nested
mismatch at `a.b` unreported, while also matching `b` reports it. -/
theorem C9_validate_only_not_inherited :
    (∀ (cx : Ctx) (f : Nat) (ef af : List (String × Json)) (curPath k : String)
      (ks : List String) (errs : List ErrorRec),
      cx.opts.validateOnlyKeys ≠ [] →
      isInOptions (joinPath curPath k) cx.opts.validateOnlyKeys = false →
      dgo cx (Nat.succ f) ef af curPath (k :: ks) errs = dgo cx f ef af curPath ks errs) ∧
    (jsonDifference noLoad none c9exp c9act c9opts regexNever).2 = Except.ok ⟨true, []⟩ ∧
    (jsonDifference noLoad none c9exp c9act c9optsB regexNever).2 =
      Except.ok ⟨false, [⟨some ("b"), some ("a.b"),
        ("Value mismatch: expected \x271\x27, got \x272\x27")⟩]⟩ := by
  refine ⟨?_, rfl, rfl⟩
  intro cx f ef af curPath k ks errs hne hmatch
  have hemp : cx.opts.validateOnlyKeys.isEmpty = false := by
    cases hv : cx.opts.validateOnlyKeys with
    | nil => exact absurd hv hne
    | cons x xs => rfl
  simp [dgo, hemp, hmatch]

/-- C9 witness: a concrete non-matching key is skipped by the loop. -/
theorem C9_witness :
    dgo (Ctx.mk [] c9opts regexNever Json.null) (Nat.succ 4) [] [] ("a") [("zz")] [] =
      dgo (Ctx.mk [] c9opts regexNever Json.null) 4 [] [] ("a") [] [] :=
  C9_validate_only_not_inherited.1 (Ctx.mk [] c9opts regexNever Json.null) 4 [] [] ("a")
    ("zz") [] [] (by decide) rfl

/-- C3 amended: the literal/leaf/suffix matching discipline characterizes
`is_in_options` and so governs the list-valued rule sets, and it also
gates `numeric_validations`; but the numeric rule is then fetched only
under the literal path (a gate hit with no literal entry is a `KeyError`),
and `regex_keys` is consulted only under the literal path (a rule
registered under a leaf key or suffix is never applied: the cascade
behaves exactly as if the map were empty). -/
theorem C3_amended :
    (∀ (p : String) (keys : List String),
      isInOptions p keys = true ↔
        (p ∈ keys ∨ getLeafKey p ∈ keys ∨
          ∃ k ∈ keys, listEndsWith p.toList ('.' :: k.toList) = true)) ∧
    (∀ (V : VMap) (rx : String → String → Bool) (root : Json) (o : Options)
      (e a : Json) (p : String) (errs : List ErrorRec),
      lookupKey o.regexKeys p = none →
      scalarCompare ⟨V, o, rx, root⟩ e a p errs =
        scalarCompare ⟨V, { o with regexKeys := [] }, rx, root⟩ e a p errs) ∧
    (∀ (cx : Ctx) (e a : Json) (p : String) (errs : List ErrorRec) (re : Json),
      resolveReference cx.rootActual e = Except.ok re →
      customValidatorFor cx p = none →
      isInOptions p cx.opts.wildcardKeys = false →
      isInNumericOptions p cx.opts.numericValidations = true →
      lookupKey cx.opts.numericValidations p = none →
      scalarCompare cx e a p errs = Except.error (("KeyError: \x27") ++ p ++ ("\x27"))) := by
  refine ⟨?_, ?_, ?_⟩
  · intro p keys
    cases keys with
    | nil => simp [isInOptions]
    | cons x xs =>
      simp only [isInOptions, List.isEmpty_cons, Bool.false_eq_true, if_false,
        List.any_eq_true, Bool.or_eq_true, beq_iff_eq]
      constructor
      · rintro ⟨k, hk, (h | h) | h⟩
        exacts [Or.inl (h ▸ hk), Or.inr (Or.inl (h ▸ hk)), Or.inr (Or.inr ⟨k, hk, h⟩)]
      · rintro (h | h | ⟨k, hk, h⟩)
        exacts [⟨p, h, Or.inl (Or.inl rfl)⟩, ⟨getLeafKey p, h, Or.inl (Or.inr rfl)⟩,
          ⟨k, hk, Or.inr h⟩]
  · intro V rx root o e a p errs h
    have h2 : (lookupKey ([] : List (String × String)) p) = none := rfl
    dsimp only [scalarCompare, customValidatorFor]
    simp [h, h2]
  · intro cx e a p errs re h1 h2 h3 h4 h5
    simp [scalarCompare, h1, h2, h3, h4, h5]

/-- C3 witness: at concrete inputs, a regex map with no literal entry for
the path behaves as the empty map, and a numeric rule keyed by the leaf
`n` alone turns the gate hit at `a.n` into the `KeyError`. -/
theorem C3_amended_witness :
    (scalarCompare ⟨[], c3opts, regexNever, Json.null⟩ (Json.num 7) (Json.num 7)
        ("a.zz") [] =
      scalarCompare ⟨[], { c3opts with regexKeys := [] }, regexNever, Json.null⟩
        (Json.num 7) (Json.num 7) ("a.zz") []) ∧
    scalarCompare ⟨[], c3wOpts, regexNever, Json.null⟩ (Json.num 5) (Json.num 5)
        ("a.n") [] = Except.error (("KeyError: \x27a.n\x27")) :=
  ⟨C3_amended.2.1 [] regexNever Json.null c3opts (Json.num 7) (Json.num 7) ("a.zz") [] rfl,
   C3_amended.2.2 ⟨[], c3wOpts, regexNever, Json.null⟩ (Json.num 5) (Json.num 5) ("a.n") []
     (Json.num 5) rfl rfl rfl rfl rfl⟩

/-- Python `==` is reflexive on scalars. -/
theorem pyEq_refl_scalar (s : Json) (h : isContainer s = false) : pyEq s s = true := by
  cases s <;> simp_all [pyEq, isContainer]

/-- A non-placeholder scalar compared with itself under default options
passes the whole cascade and falls through without recording anything. -/
theorem scalarCompare_self (V : VMap) (rx : String → String → Bool) (root : Json)
    (s : Json) (path : String) (errs : List ErrorRec)
    (hs : isContainer s = false) (hnp : noPlaceholder s = true) :
    scalarCompare ⟨V, {}, rx, root⟩ s s path errs = Except.ok (errs, Outcome.fall) := by
  cases s with
  | str v =>
    have hph : placeholderRef v = none := by
      simpa [noPlaceholder, Option.isNone_iff_eq_none] using hnp
    simp [scalarCompare, resolveReference, hph, customValidatorFor, lookupKey,
      isInOptions, isInNumericOptions, pyEq]
  | null => simp [scalarCompare, resolveReference, customValidatorFor, lookupKey,
      isInOptions, isInNumericOptions, pyEq]
  | bool b => simp [scalarCompare, resolveReference, customValidatorFor, lookupKey,
      isInOptions, isInNumericOptions, pyEq]
  | num q => simp [scalarCompare, resolveReference, customValidatorFor, lookupKey,
      isInOptions, isInNumericOptions, pyEq]
  | arr l => simp [isContainer] at hs
  | obj fs => simp [isContainer] at hs

/-- Membership after `insertStr` comes from the inserted element or the
original list. -/
theorem mem_insertStr (x s : String) (l : List String) (h : x ∈ insertStr s l) :
    x = s ∨ x ∈ l := by
  induction l with
  | nil => simpa [insertStr] using h
  | cons y ys ih =>
    rw [insertStr] at h
    by_cases hc : listCharLt s.toList y.toList
    · rw [if_pos hc] at h
      rcases List.mem_cons.mp h with h1 | h1
      · exact Or.inl h1
      · exact Or.inr h1
    · rw [if_neg hc] at h
      rcases List.mem_cons.mp h with h1 | h1
      · exact Or.inr (h1 ▸ List.mem_cons_self _ _)
      · rcases ih h1 with h2 | h2
        · exact Or.inl h2
        · exact Or.inr (List.mem_cons_of_mem _ h2)

/-- Sorting the key set does not invent keys. -/
theorem mem_sortStrings (x : String) (l : List String) (h : x ∈ sortStrings l) : x ∈ l := by
  induction l with
  | nil => simpa [sortStrings] using h
  | cons y ys ih =>
    rcases mem_insertStr x y (sortStrings ys) (by simpa [sortStrings] using h) with h2 | h2
    · exact h2 ▸ List.mem_cons_self _ _
    · exact List.mem_cons_of_mem _ (ih h2)

/-- Deduplication does not invent keys. -/
theorem mem_dedupStrGo (x : String) (seen l : List String) (h : x ∈ dedupStrGo seen l) :
    x ∈ l := by
  induction l generalizing seen with
  | nil => simpa [dedupStrGo] using h
  | cons y ys ih =>
    rw [dedupStrGo] at h
    by_cases hc : seen.contains y
    · rw [if_pos hc] at h
      exact List.mem_cons_of_mem _ (ih (seen) h)
    · rw [if_neg hc] at h
      rcases List.mem_cons.mp h with h1 | h1
      · exact h1 ▸ List.mem_cons_self _ _
      · exact List.mem_cons_of_mem _ (ih (y :: seen) h1)

/-- Deduplication does not invent keys. -/
theorem mem_dedupStr (x : String) (l : List String) (h : x ∈ dedupStr l) : x ∈ l :=
  mem_dedupStrGo x [] l h

/-- A key of the dict looks up to something. -/
theorem lookupKey_isSome_of_mem (x : String) (ef : List (String × Json))
    (h : x ∈ objKeys ef) : (lookupKey ef x).isSome = true := by
  induction ef with
  | nil => simpa [objKeys] using h
  | cons kv rest ih =>
    rw [lookupKey]
    by_cases hc : kv.1 == x
    · obtain ⟨k0, v0⟩ := kv
      simp only at hc
      rw [if_pos hc]
      rfl
    · obtain ⟨k0, v0⟩ := kv
      simp only at hc
      rw [if_neg hc]
      rcases (by simpa [objKeys] using h : x = k0 ∨ x ∈ objKeys rest) with h2 | h2
      · exact absurd (h2 ▸ (beq_self_eq_true x : (x == x) = true)) (by
          intro hx
          exact hc (by simpa [h2] using hx))
      · exact ih h2

/-- A value looked up in a placeholder-free dict is placeholder-free. -/
theorem noPlaceholder_of_lookup (ef : List (String × Json)) (k : String) (v : Json)
    (hnp : noPlaceholderFields ef = true) (h : lookupKey ef k = some v) :
    noPlaceholder v = true := by
  induction ef with
  | nil => simp [lookupKey] at h
  | cons kv rest ih =>
    obtain ⟨k0, v0⟩ := kv
    rw [noPlaceholderFields, Bool.and_eq_true] at hnp
    rw [lookupKey] at h
    by_cases hc : k0 == k
    · rw [if_pos hc] at h
      cases h
      exact hnp.1
    · rw [if_neg hc] at h
      exact ih hnp.2 h

/-- An element of a placeholder-free list is placeholder-free. -/
theorem noPlaceholder_of_mem (l : List Json) (v : Json)
    (hnp : noPlaceholderList l = true) (h : v ∈ l) : noPlaceholder v = true := by
  induction l with
  | nil => cases h
  | cons x xs ih =>
    rw [noPlaceholderList, Bool.and_eq_true] at hnp
    rcases List.mem_cons.mp h with h1 | h1
    · exact h1 ▸ hnp.1
    · exact ih hnp.2 h1

/-- Values after a Python dict assignment come from the new binding or the
old map. -/
theorem mem_snd_mapInsert (w key v : Json) (m : List (Json × Json))
    (h : w ∈ (mapInsert key v m).map Prod.snd) : w = v ∨ w ∈ m.map Prod.snd := by
  induction m with
  | nil =>
    rcases (by simpa [mapInsert] using h : w = v) with h2
    exact Or.inl h2
  | cons kv rest ih =>
    obtain ⟨k0, v0⟩ := kv
    rw [mapInsert] at h
    by_cases hc : pyEq k0 key
    · rw [if_pos hc] at h
      rcases (by simpa using h : w = v ∨ w ∈ rest.map Prod.snd) with h2 | h2
      · exact Or.inl h2
      · exact Or.inr (by simpa using Or.inr h2)
    · rw [if_neg hc] at h
      rcases (by simpa using h : w = v0 ∨ w ∈ (mapInsert key v rest).map Prod.snd) with h2 | h2
      · exact Or.inr (by simpa using Or.inl h2)
      · rcases ih h2 with h3 | h3
        · exact Or.inl h3
        · exact Or.inr (by simpa using Or.inr h3)

/-- Values of the identity map are elements of the original list. -/
theorem mem_buildMapPy_values (w : Json) (k : String) (items : List Json)
    (h : w ∈ (buildMapPy k items).map Prod.snd) : w ∈ items := by
  suffices hgen : ∀ (its : List Json) (acc : List (Json × Json)),
      w ∈ (its.foldl (fun m item => mapInsert (objGetD item k) item m) acc).map Prod.snd →
      w ∈ its ∨ w ∈ acc.map Prod.snd by
    rcases hgen items [] (by simpa [buildMapPy] using h) with h2 | h2
    · exact h2
    · simp at h2
  intro its
  induction its with
  | nil => intro acc hh; exact Or.inr (by simpa using hh)
  | cons x xs ih =>
    intro acc hh
    rw [List.foldl_cons] at hh
    rcases ih (mapInsert (objGetD x k) x acc) hh with h2 | h2
    · exact Or.inl (List.mem_cons_of_mem _ h2)
    · rcases mem_snd_mapInsert w (objGetD x k) x acc h2 with h3 | h3
      · exact Or.inl (h3 ▸ List.mem_cons_self _ _)
      · exact Or.inr h3

/-- A value found by identity lookup is a value of the map. -/
theorem lookupPyEq_mem (m : List (Json × Json)) (x v : Json)
    (h : lookupPyEq m x = some v) : v ∈ m.map Prod.snd := by
  induction m with
  | nil => simp [lookupPyEq] at h
  | cons kv rest ih =>
    obtain ⟨k0, v0⟩ := kv
    rw [lookupPyEq] at h
    by_cases hc : pyEq k0 x
    · rw [if_pos hc] at h
      cases h
      exact by simpa using Or.inl rfl
    · rw [if_neg hc] at h
      exact by simpa using Or.inr (by simpa using ih h)

/-- Under default options, comparing any placeholder-free structure against
itself never appends an error at any fuel level: the simultaneous induction
over the walker, the per-key dict loop, both list loops and the identity
loop. -/
theorem selfCompareAux (V : VMap) (rx : String → String → Bool) (root : Json) :
    ∀ fuel : Nat,
    (∀ t path errs r, noPlaceholder t = true →
      jdiff ⟨V, {}, rx, root⟩ fuel t t path errs = Except.ok r → r = (errs, Outcome.fall)) ∧
    (∀ ef curPath ks errs r, noPlaceholderFields ef = true →
      (∀ k, k ∈ ks → (lookupKey ef k).isSome = true) →
      dgo ⟨V, {}, rx, root⟩ fuel ef ef curPath ks errs = Except.ok r → r = errs) ∧
    (∀ curPath i l errs r, noPlaceholderList l = true →
      sgo ⟨V, {}, rx, root⟩ fuel curPath i l l errs = Except.ok r → r = errs) ∧
    (∀ el curPath errs r, noPlaceholderList el = true →
      compareListsSymmetric ⟨V, {}, rx, root⟩ fuel el el curPath errs = Except.ok r →
      r = errs) ∧
    (∀ el curPath errs r, noPlaceholderList el = true →
      compareListsUnordered ⟨V, {}, rx, root⟩ fuel el el curPath errs = Except.ok r →
      r = errs) ∧
    (∀ k curPath m ids errs r, (∀ v, v ∈ m.map Prod.snd → noPlaceholder v = true) →
      ugo ⟨V, {}, rx, root⟩ fuel k curPath m m ids errs = Except.ok r → r = errs) := by
  intro fuel
  induction fuel with
  | zero =>
    refine ⟨?_, ?_, ?_, ?_, ?_, ?_⟩
    · intro t path errs r _ h; rw [jdiff] at h; cases h
    · intro ef curPath ks errs r _ _ h; rw [dgo] at h; cases h
    · intro curPath i l errs r _ h; rw [sgo] at h; cases h
    · intro el curPath errs r _ h; rw [compareListsSymmetric] at h; cases h
    · intro el curPath errs r _ h; rw [compareListsUnordered] at h; cases h
    · intro k curPath m ids errs r _ h; rw [ugo] at h; cases h
  | succ f ih =>
    obtain ⟨ihJ, ihD, ihS, ihSym, ihU, ihUgo⟩ := ih
    refine ⟨?_, ?_, ?_, ?_, ?_, ?_⟩
    · intro t path errs r hnp h
      cases t with
      | null =>
        simp only [jdiff, isContainer, Bool.or_self, Bool.false_eq_true, if_false] at h
        rw [scalarCompare_self V rx root Json.null path errs rfl rfl] at h
        exact (Except.ok.inj h).symm
      | bool b =>
        simp only [jdiff, isContainer, Bool.or_self, Bool.false_eq_true, if_false] at h
        rw [scalarCompare_self V rx root (Json.bool b) path errs rfl rfl] at h
        exact (Except.ok.inj h).symm
      | num q =>
        simp only [jdiff, isContainer, Bool.or_self, Bool.false_eq_true, if_false] at h
        rw [scalarCompare_self V rx root (Json.num q) path errs rfl rfl] at h
        exact (Except.ok.inj h).symm
      | str v =>
        simp only [jdiff, isContainer, Bool.or_self, Bool.false_eq_true, if_false] at h
        rw [scalarCompare_self V rx root (Json.str v) path errs rfl hnp] at h
        exact (Except.ok.inj h).symm
      | obj ef =>
        simp only [jdiff] at h
        cases hd : dgo ⟨V, {}, rx, root⟩ f ef ef path
            (sortStrings (dedupStr (objKeys ef ++ objKeys ef))) errs with
        | error m => rw [hd] at h; cases h
        | ok es =>
          rw [hd] at h
          have hes : es = errs := by
            refine ihD ef path _ errs es (by simpa [noPlaceholder] using hnp) ?_ hd
            intro k hk
            have hk2 : k ∈ objKeys ef ++ objKeys ef :=
              mem_dedupStr k _ (mem_sortStrings k _ hk)
            have hk3 : k ∈ objKeys ef := by
              rcases List.mem_append.mp hk2 with h2 | h2 <;> exact h2
            exact lookupKey_isSome_of_mem k ef hk3
          simp only [Except.map] at h
          cases h
          rw [hes]
      | arr el =>
        simp only [jdiff] at h
        rw [show ((Ctx.mk V {} rx root).opts.listValidationType.getD ("unordered") ==
          ("symmetric")) = false from rfl] at h
        simp only [Bool.false_eq_true, if_false] at h
        cases hu : compareListsUnordered ⟨V, {}, rx, root⟩ f el el path errs with
        | error m => rw [hu] at h; cases h
        | ok es =>
          rw [hu] at h
          have hes : es = errs := ihU el path errs es (by simpa [noPlaceholder] using hnp) hu
          simp only [Except.map] at h
          cases h
          rw [hes]
    · intro ef curPath ks errs r hnp hks h
      cases ks with
      | nil =>
        simp only [dgo] at h
        exact (Except.ok.inj h).symm
      | cons k ks2 =>
        simp only [dgo, isInOptions, customValidatorFor, lookupKey, List.isEmpty_nil,
          Bool.not_false, Bool.true_or, Bool.and_self, Bool.and_true, Bool.true_and,
          Bool.not_true, Bool.not_not, Bool.false_eq_true, if_false, if_true] at h
        have hsome := hks k (List.mem_cons_self _ _)
        split at h
        · rename_i x hnone
          rw [hnone] at hsome
          cases hsome
        · rename_i hnone hval
          rw [hnone] at hsome
          cases hsome
        · rename_i ev av hev hav
          have hvv : ev = av := Option.some.inj (hev.symm.trans hav)
          subst hvv
          split at h
          · cases h
          · rename_i r2 hj
            rw [ihJ ev (joinPath curPath k) errs r2
              (noPlaceholder_of_lookup ef k ev hnp hev) hj] at h
            exact ihD ef curPath ks2 errs r hnp
              (fun k2 hk2 => hks k2 (List.mem_cons_of_mem _ hk2)) h
    · intro curPath i l errs r hnp h
      cases l with
      | nil =>
        simp only [sgo] at h
        exact (Except.ok.inj h).symm
      | cons x xs =>
        simp only [sgo] at h
        rw [noPlaceholderList, Bool.and_eq_true] at hnp
        split at h
        · cases h
        · rename_i r2 hj
          rw [ihJ x _ errs r2 hnp.1 hj] at h
          exact ihS curPath (i + 1) xs errs r hnp.2 h
    · intro el curPath errs r hnp h
      simp only [compareListsSymmetric, bne_self_eq_false, Bool.false_eq_true, if_false] at h
      exact ihS curPath 0 el errs r hnp h
    · intro el curPath errs r hnp h
      simp only [compareListsUnordered] at h
      split at h
      · exact ihSym el curPath errs r hnp h
      · split at h
        · rename_i k hpk
          split at h
          · split at h
            · cases h
            · rename_i ids hsort
              refine ihUgo k curPath (buildMapPy k el) ids errs r ?_ h
              intro v hv
              exact noPlaceholder_of_mem el v hnp (mem_buildMapPy_values v k el hv)
          · cases h
        · simp only [bne_self_eq_false, Bool.false_eq_true, if_false] at h
          exact ihS curPath 0 el errs r hnp h
    · intro k curPath m ids errs r hnp h
      cases ids with
      | nil =>
        simp only [ugo] at h
        exact (Except.ok.inj h).symm
      | cons idv rest =>
        simp only [ugo] at h
        split at h
        · rename_i ev av hev hav
          have hva : ev = av := Option.some.inj (hev.symm.trans hav)
          subst hva
          split at h
          · cases h
          · rename_i r2 hj
            rw [ihJ ev _ errs r2 (hnp ev (lookupPyEq_mem m idv ev hev)) hj] at h
            exact ihUgo k curPath m rest errs r hnp h
        · rename_i hev hav
          exact absurd (hev.symm.trans hav) (by simp)
        · rename_i hev hav
          exact absurd (hev.symm.trans hav) (by simp)
        · exact ihUgo k curPath m rest errs r hnp h

/-- C5 amended: comparing any placeholder-free tree against itself under
default (empty) options yields `result = true` and zero errors whenever the
comparison returns normally (a tree containing a placeholder leaf can
instead report a mismatch or resolution failure, and identity values of
mixed type can abort the walk). -/
theorem C5_amended (load : Loader) (reg : Registry) (rx : String → String → Bool)
    (t : Json) (res : JResult) (hnp : noPlaceholder t = true)
    (h : (jsonDifference load reg t t {} rx).2 = Except.ok res) :
    res.result = true ∧ res.errors = [] := by
  have hload : loadStep load reg ({} : Options) = (reg, []) := by
    cases reg <;> rfl
  simp only [jsonDifference, hload] at h
  rw [runComparison] at h
  cases hj : jdiff ⟨reg.getD [], ({} : Options), rx, t⟩ (fuelFor t t) t t ("") [] with
  | error m => rw [hj] at h; cases h
  | ok r2 =>
    rw [hj] at h
    have hr2 : r2 = ([], Outcome.fall) :=
      (selfCompareAux (reg.getD []) rx t (fuelFor t t)).1 t ("") [] r2 hnp hj
    rw [hr2] at h
    have h2 : (⟨true, []⟩ : JResult) = res := Except.ok.inj h
    rw [← h2]
    exact ⟨rfl, rfl⟩

/-- C5 witness: a concrete placeholder-free tree compares against itself to
a normal return, and the theorem yields the clean result there. -/
theorem C5_amended_witness :
    noPlaceholder c5good = true ∧
    (jsonDifference noLoad none c5good c5good {} regexNever).2 = Except.ok ⟨true, []⟩ ∧
    ((⟨true, []⟩ : JResult).result = true ∧ (⟨true, []⟩ : JResult).errors = []) :=
  ⟨rfl, rfl, C5_amended noLoad none regexNever c5good ⟨true, []⟩ rfl rfl⟩

end Validly
